import Mathlib

/-!
# Verification of `brave_profile_color.py`

A shallow embedding of the Brave Profile Color Manager script, together with
theorems settling the specification claims about it.

Modelling choices, shared by the whole development:

* Python strings are modelled as `String`/`List Char` (Lean strings are lists
  of characters, and all characters appearing in the claims are ASCII).
* A Python function that can raise an uncaught exception is modelled as an
  `Option`-valued function, `none` standing for the raised exception.
* JSON documents are modelled by the inductive type `Json` below; a JSON
  object is an association list of string keys (Python dicts preserve
  insertion order, which the association list mirrors).
* The filesystem interactions of the script are factored at the I/O
  boundary: reading a file that is missing, unreadable, or whose contents do
  not parse as JSON is represented by `none : Option Json`, a successful
  read by `some document`.
-/

/-! ## Characters

`hexDigitVal?` models the per-character acceptance of Python's
`int(s, 16)` on the characters `0-9`, `a-f`, `A-F` (other refinements of
Python's integer parsing, such as underscores between digits, never arise
in the claims and are noted where relevant).  `natToHexDigit` models the
digits produced by the format specifier `X`, and `upperHexChar` /
`lowerChar` model `str.upper` / `str.lower` on ASCII characters. -/

def hexDigitVal? (c : Char) : Option Nat :=
  if 48 ≤ c.toNat ∧ c.toNat ≤ 57 then some (c.toNat - 48)
  else if 97 ≤ c.toNat ∧ c.toNat ≤ 102 then some (c.toNat - 87)
  else if 65 ≤ c.toNat ∧ c.toNat ≤ 70 then some (c.toNat - 55)
  else none

def natToHexDigit (n : Nat) : Char :=
  if n < 10 then Char.ofNat (48 + n) else Char.ofNat (55 + n)

def upperHexChar (c : Char) : Char :=
  if 97 ≤ c.toNat ∧ c.toNat ≤ 122 then Char.ofNat (c.toNat - 32) else c

def lowerChar (c : Char) : Char :=
  if 65 ≤ c.toNat ∧ c.toNat ≤ 90 then Char.ofNat (c.toNat + 32) else c

/-! ## Color codec (`hex_to_signed_int`, `signed_int_to_hex`) -/

/-- `int(s, 16)` on a string of hex digits, accumulator style;
`none` models the `ValueError` raised on a non-hex character. -/
def parseHexAux (acc : Nat) : List Char → Option Nat
  | [] => some acc
  | c :: cs =>
    match hexDigitVal? c with
    | some v => parseHexAux (16 * acc + v) cs
    | none => none

/-- Reinterpret an unsigned 32-bit value as signed two's complement
(the final step of `hex_to_signed_int`); `2147483648 = 1 << 31` and
`4294967296 = 1 << 32` as in the script. -/
def toSigned32 (u : Nat) : Int :=
  if 2147483648 ≤ u then (u : Int) - 4294967296 else (u : Int)

/-- `hex_to_signed_int` (lines 108-136 of the script): strip leading `#`
characters (Python `lstrip('#')`), pad a 6-digit string with the opaque
alpha `FF`, reject any other length than 8, parse as hex and reinterpret as
signed 32-bit.  `none` models a raised `ValueError`. -/
def hex_to_signed_int (s : List Char) : Option Int :=
  if (s.dropWhile (· == '#')).length = 6 then
    (parseHexAux 0 ('F' :: 'F' :: s.dropWhile (· == '#'))).map toSigned32
  else if (s.dropWhile (· == '#')).length = 8 then
    (parseHexAux 0 (s.dropWhile (· == '#'))).map toSigned32
  else none

/-- The `k` low hex digits of `n`, most significant first
(the format specifier `06X` with `k = 6`, for `n < 16 ^ 6`). -/
def toHexDigits : Nat → Nat → List Char
  | 0, _ => []
  | k + 1, n => toHexDigits k (n / 16) ++ [natToHexDigit (n % 16)]

/-- `signed_int_to_hex` (lines 139-155 of the script): map a negative value
back to its unsigned 32-bit form (`+ (1 << 32)`, written `4294967296`), keep
the low 24 bits (`& 0xFFFFFF`, which on a Python int is the Euclidean
`mod 16777216`), and format as `#RRGGBB`. -/
def signed_int_to_hex (i : Int) : List Char :=
  '#' :: toHexDigits 6 (((if i < 0 then i + 4294967296 else i) % 16777216).toNat)

/-! ## Basic facts about the codec -/

theorem hexDigitVal?_lt {c : Char} {v : Nat} (h : hexDigitVal? c = some v) :
    v < 16 := by
  unfold hexDigitVal? at h
  split_ifs at h <;> simp_all <;> omega

theorem toNat_ofNat_valid {n : Nat} (h : n < 55296) :
    (Char.ofNat n).toNat = n := by
  rw [Char.ofNat, dif_pos (Or.inl h)]
  rfl

theorem hexDigit_upper {c : Char} {v : Nat} (h : hexDigitVal? c = some v) :
    natToHexDigit v = upperHexChar c := by
  have hval : c.toNat < 55296 := by
    unfold hexDigitVal? at h
    split_ifs at h <;> simp_all <;> omega
  unfold hexDigitVal? at h
  unfold natToHexDigit upperHexChar
  split_ifs at h with h1 h2 h3 <;> injection h with h <;> subst h
  · rw [if_pos (by omega), if_neg (by omega)]
    have : 48 + (c.toNat - 48) = c.toNat := by omega
    rw [this, Char.ofNat_toNat]
  · rw [if_neg (by omega), if_pos (by omega)]
    congr 1
    omega
  · rw [if_neg (by omega), if_neg (by omega)]
    have : 55 + (c.toNat - 55) = c.toNat := by omega
    rw [this, Char.ofNat_toNat]

/-- Validity of a hex string: every character is a hex digit. -/
def AllHex (ds : List Char) : Prop := ∀ c ∈ ds, (hexDigitVal? c).isSome

instance : DecidablePred AllHex := fun ds =>
  inferInstanceAs (Decidable (∀ c ∈ ds, (hexDigitVal? c).isSome))

/-- Total companion of `parseHexAux` (digit values read with `getD 0`). -/
def parseVal (acc : Nat) : List Char → Nat
  | [] => acc
  | c :: cs => parseVal (16 * acc + (hexDigitVal? c).getD 0) cs

theorem parseHexAux_eq_parseVal {ds : List Char} (h : AllHex ds) :
    ∀ acc, parseHexAux acc ds = some (parseVal acc ds) := by
  induction ds with
  | nil => intro acc; rfl
  | cons c cs ih =>
    intro acc
    obtain ⟨v, hv⟩ := Option.isSome_iff_exists.mp (h c (by simp))
    have hcs : AllHex cs := fun x hx => h x (by simp [hx])
    simp [parseHexAux, parseVal, hv, ih hcs]

theorem parseVal_acc (ds : List Char) :
    ∀ acc, parseVal acc ds = acc * 16 ^ ds.length + parseVal 0 ds := by
  induction ds with
  | nil => intro acc; simp [parseVal]
  | cons c cs ih =>
    intro acc
    rw [parseVal, parseVal, ih, ih (16 * 0 + (hexDigitVal? c).getD 0),
      List.length_cons]
    ring

theorem parseVal_lt {ds : List Char} (h : AllHex ds) :
    parseVal 0 ds < 16 ^ ds.length := by
  induction ds with
  | nil => simp [parseVal]
  | cons c cs ih =>
    obtain ⟨v, hv⟩ := Option.isSome_iff_exists.mp (h c (by simp))
    have hcs : AllHex cs := fun x hx => h x (by simp [hx])
    have hvlt : v < 16 := hexDigitVal?_lt hv
    have := ih hcs
    rw [parseVal, parseVal_acc, hv]
    simp only [Option.getD_some, List.length_cons]
    have h16 : (16 * 0 + v) * 16 ^ cs.length ≤ 15 * 16 ^ cs.length :=
      Nat.mul_le_mul_right _ (by omega)
    calc (16 * 0 + v) * 16 ^ cs.length + parseVal 0 cs
        < (16 * 0 + v) * 16 ^ cs.length + 16 ^ cs.length := by omega
      _ ≤ 15 * 16 ^ cs.length + 16 ^ cs.length := by omega
      _ = 16 ^ (cs.length + 1) := by ring

theorem parseVal_snoc (ds : List Char) (c : Char) :
    ∀ acc, parseVal acc (ds ++ [c])
      = 16 * parseVal acc ds + (hexDigitVal? c).getD 0 := by
  induction ds with
  | nil => intro acc; simp [parseVal]
  | cons d cs ih => intro acc; simp [parseVal, ih]

theorem toHexDigits_parseVal (ds : List Char) (h : AllHex ds) :
    toHexDigits ds.length (parseVal 0 ds) = ds.map upperHexChar := by
  induction ds using List.reverseRecOn with
  | nil => rfl
  | append_singleton es c ih =>
    have hes : AllHex es := fun x hx => h x (by simp [hx])
    obtain ⟨v, hv⟩ := Option.isSome_iff_exists.mp (h c (by simp))
    have hvlt : v < 16 := hexDigitVal?_lt hv
    rw [parseVal_snoc, hv]
    simp only [Option.getD_some, List.length_append, List.length_cons,
      List.length_nil, List.map_append, List.map_cons, List.map_nil]
    have hdiv : (16 * parseVal 0 es + v) / 16 = parseVal 0 es := by omega
    have hmod : (16 * parseVal 0 es + v) % 16 = v := by omega
    rw [show es.length + 0 + 1 = es.length + 1 from by omega, toHexDigits,
      hdiv, hmod, ih hes, hexDigit_upper hv]

theorem dropWhile_hash_of_allHex {ds : List Char} (hv : AllHex ds) :
    ds.dropWhile (· == '#') = ds := by
  cases ds with
  | nil => rfl
  | cons c cs =>
    have hc : (hexDigitVal? c).isSome := hv c (by simp)
    have : (c == '#') = false := by
      apply beq_eq_false_iff_ne.mpr
      intro h
      subst h
      simp [hexDigitVal?] at hc
    simp [List.dropWhile_cons, this]


theorem signed_int_to_hex_toSigned32 {u : Nat} (hlo : 4278190080 ≤ u)
    (hhi : u < 4294967296) :
    signed_int_to_hex (toSigned32 u) = '#' :: toHexDigits 6 (u % 16777216) := by
  unfold toSigned32 signed_int_to_hex
  rw [if_pos (show (2147483648 : Nat) ≤ u by omega)]
  rw [if_pos (show ((u : Nat) : Int) - 4294967296 < 0 by omega)]
  congr 2
  omega

theorem round_trip_core {ds : List Char} (h6 : ds.length = 6) (hv : AllHex ds) :
    (hex_to_signed_int ds).map signed_int_to_hex
      = some ('#' :: ds.map upperHexChar) := by
  have hdrop := dropWhile_hash_of_allHex hv
  have hFF : AllHex ('F' :: 'F' :: ds) := by
    intro c hc
    simp only [List.mem_cons] at hc
    rcases hc with rfl | rfl | hc
    · decide
    · decide
    · exact hv c hc
  have hR : parseVal 0 ds < 16 ^ 6 := h6 ▸ parseVal_lt hv
  have h166 : (16 : Nat) ^ 6 = 16777216 := by norm_num
  have h1 : hex_to_signed_int ds
      = some (toSigned32 (255 * 16 ^ 6 + parseVal 0 ds)) := by
    unfold hex_to_signed_int
    rw [hdrop, if_pos h6, parseHexAux_eq_parseVal hFF]
    simp only [Option.map_some']
    congr 2
    show parseVal 255 ds = _
    rw [parseVal_acc, h6]
  rw [h1, Option.map_some',
    signed_int_to_hex_toSigned32 (by omega) (by omega)]
  have hmod : (255 * 16 ^ 6 + parseVal 0 ds) % 16777216 = parseVal 0 ds := by
    omega
  rw [hmod, show (6 : Nat) = ds.length from h6.symm, toHexDigits_parseVal ds hv]

/-- **C1**: for every valid 6-hex-digit color string, with or without a
leading `#` and in any letter case, `signed_int_to_hex (hex_to_signed_int x)`
equals `x` normalized to uppercase with a leading `#`. -/
theorem hex_color_round_trip_claim (ds : List Char) (h6 : ds.length = 6)
    (hv : ∀ c ∈ ds, (hexDigitVal? c).isSome) :
    (hex_to_signed_int ds).map signed_int_to_hex
        = some ('#' :: ds.map upperHexChar)
    ∧ (hex_to_signed_int ('#' :: ds)).map signed_int_to_hex
        = some ('#' :: ds.map upperHexChar) := by
  have hd2 : ('#' :: ds).dropWhile (· == '#') = ds.dropWhile (· == '#') := by
    rw [List.dropWhile_cons]
    simp
  have hhash : hex_to_signed_int ('#' :: ds) = hex_to_signed_int ds := by
    unfold hex_to_signed_int
    rw [hd2]
  refine ⟨round_trip_core h6 hv, ?_⟩
  rw [hhash]
  exact round_trip_core h6 hv

/-- Witness for C1 at the concrete input `"aB12cD"`. -/
theorem hex_color_round_trip_claim_witness :
    (hex_to_signed_int "aB12cD".data).map signed_int_to_hex
        = some ('#' :: "aB12cD".data.map upperHexChar)
    ∧ (hex_to_signed_int ('#' :: "aB12cD".data)).map signed_int_to_hex
        = some ('#' :: "aB12cD".data.map upperHexChar) :=
  hex_color_round_trip_claim "aB12cD".data (by decide) (by decide)

/-- **C2**, counterexample: `hex_to_signed_int "#FF5500"` evaluates to
`-43776` (which is `0xFFFF5500 - 2 ^ 32`), not to the `-44800` the claim
states. -/
theorem hexToSignedInt_FF5500_counterexample :
    hex_to_signed_int "#FF5500".data = some (-43776)
    ∧ ((-43776 : Int) ≠ -44800) := by
  constructor
  · decide
  · decide

/-- **C2** (amended): `hex_to_signed_int "#FF5500"` returns exactly the
integer `-43776`, that is `0xFFFF5500` reinterpreted as a signed 32-bit
two's-complement integer. -/
theorem hexToSignedInt_FF5500_value :
    hex_to_signed_int "#FF5500".data = some (-43776) := by
  decide

/-- **C8**: every input whose length after stripping the leading `#`
characters is neither 6 nor 8 is rejected with a format error (`ValueError`,
modelled by `none`), and `hex_to_signed_int "GGGGGG"` also raises a
`ValueError` (here from the hex parse of the padded `"FFGGGGGG"`). -/
theorem hex_invalid_input_error :
    (∀ s : List Char, (s.dropWhile (· == '#')).length ≠ 6 →
        (s.dropWhile (· == '#')).length ≠ 8 → hex_to_signed_int s = none)
    ∧ hex_to_signed_int "GGGGGG".data = none := by
  constructor
  · intro s h6 h8
    unfold hex_to_signed_int
    rw [if_neg h6, if_neg h8]
  · decide

/-- Witness for C8 at the concrete input `"12345"` (length 5). -/
theorem hex_invalid_input_error_witness :
    hex_to_signed_int "12345".data = none :=
  hex_invalid_input_error.1 "12345".data (by decide) (by decide)

/-! ## JSON documents

`Json` models the values `json.load` can produce.  A JSON object is an
association list: Python dicts preserve insertion order, assignment to an
existing key keeps its position, and assignment to a fresh key appends. -/

inductive Json where
  | null
  | bool (b : Bool)
  | num (n : Int)
  | str (s : String)
  | arr (xs : List Json)
  | obj (fields : List (String × Json))

/-- Dictionary lookup, `d.get(k)` / `k in d`. -/
def jLookup : List (String × Json) → String → Option Json
  | [], _ => none
  | (k, v) :: rest, q => if k = q then some v else jLookup rest q

/-- Dictionary assignment `d[k] = v`. -/
def jSet : List (String × Json) → String → Json → List (String × Json)
  | [], k, v => [(k, v)]
  | (k', v') :: rest, k, v =>
    if k' = k then (k, v) :: rest else (k', v') :: jSet rest k v

/-- `if k not in d: d[k] = {}` — the structure-ensuring step of
`set_theme_color`. -/
def jEnsure (l : List (String × Json)) (k : String) : List (String × Json) :=
  if (jLookup l k).isNone then jSet l k (.obj []) else l

/-- Read a nested path of object keys. -/
def jGetPath : Json → List String → Option Json
  | j, [] => some j
  | .obj fields, k :: ks =>
    match jLookup fields k with
    | some v => jGetPath v ks
    | none => none
  | _, _ :: _ => none

theorem jLookup_jSet_self (l : List (String × Json)) (k : String) (v : Json) :
    jLookup (jSet l k v) k = some v := by
  induction l with
  | nil => simp [jSet, jLookup]
  | cons p rest ih =>
    obtain ⟨k', v'⟩ := p
    by_cases h : k' = k
    · simp [jSet, h, jLookup]
    · simp [jSet, h, jLookup, ih]

theorem jLookup_jSet_ne {k q : String} (l : List (String × Json)) (v : Json)
    (h : q ≠ k) : jLookup (jSet l k v) q = jLookup l q := by
  induction l with
  | nil => simp [jSet, jLookup, Ne.symm h]
  | cons p rest ih =>
    obtain ⟨k', v'⟩ := p
    by_cases hk : k' = k
    · subst hk
      simp [jSet, jLookup, Ne.symm h]
    · simp [jSet, hk, jLookup, ih]

theorem jLookup_jEnsure_ne {k q : String} (l : List (String × Json))
    (h : q ≠ k) : jLookup (jEnsure l k) q = jLookup l q := by
  unfold jEnsure
  split
  · exact jLookup_jSet_ne l _ h
  · rfl

theorem jLookup_jEnsure_self (l : List (String × Json)) (k : String) :
    jLookup (jEnsure l k) k = some ((jLookup l k).getD (.obj [])) := by
  unfold jEnsure
  split_ifs with h
  · rw [jLookup_jSet_self, Option.isNone_iff_eq_none.mp h]
    rfl
  · cases hl : jLookup l k with
    | none => simp [hl] at h
    | some v => simp [hl]

/-! ## Preference mutator (`set_theme_color`, lines 287-339)

`updatePrefs` is the in-memory read-modify step of `set_theme_color`:
ensure `autogenerated.theme` exists, set `autogenerated.theme.color`,
ensure `extensions.theme` exists, force `extensions.theme.id`.  In the
script, a document (or nested value) that is not a dict at one of these
spots makes the subscripting raise an uncaught `TypeError`; the `none`
result models that crash (no value is returned and nothing is written). -/

/-- Lines 311-318: ensure `autogenerated.theme` exists and set
`autogenerated.theme.color = color_int`. -/
def setColorStep (prefs : List (String × Json)) (c : Int) :
    Option (List (String × Json)) :=
  match jLookup (jEnsure prefs "autogenerated") "autogenerated" with
  | some (.obj auto0) =>
    match jLookup (jEnsure auto0 "theme") "theme" with
    | some (.obj theme0) =>
      some (jSet (jEnsure prefs "autogenerated") "autogenerated"
        (.obj (jSet (jEnsure auto0 "theme") "theme"
          (.obj (jSet theme0 "color" (.num c))))))
    | _ => none
  | _ => none

/-- Lines 320-326: ensure `extensions.theme` exists and force
`extensions.theme.id = "autogenerated_theme_id"`. -/
def setThemeIdStep (prefs : List (String × Json)) :
    Option (List (String × Json)) :=
  match jLookup (jEnsure prefs "extensions") "extensions" with
  | some (.obj ext0) =>
    match jLookup (jEnsure ext0 "theme") "theme" with
    | some (.obj etheme0) =>
      some (jSet (jEnsure prefs "extensions") "extensions"
        (.obj (jSet (jEnsure ext0 "theme") "theme"
          (.obj (jSet etheme0 "id" (.str "autogenerated_theme_id"))))))
    | _ => none
  | _ => none

def updatePrefs (j : Json) (c : Int) : Option Json :=
  match j with
  | .obj prefs0 =>
    match setColorStep prefs0 c with
    | some prefs2 =>
      match setThemeIdStep prefs2 with
      | some prefs4 => some (.obj prefs4)
      | none => none
    | none => none
  | _ => none

/-- The filesystem state relevant to one `set_theme_color` call: the
profile's preference file (`none` when it is missing, unreadable, or not
valid JSON) and the set of backup files. -/
structure FS where
  prefs : Option Json
  backups : List Json

/-- `set_theme_color` (lines 287-339): read and parse the preference file
(a failure is caught and reported as `False`), mutate the document, and —
unless `dry_run` — back up the old file when `backup` is set and overwrite
the document.  The outer `none` models the uncaught `TypeError` crash on a
document of unexpected shape (before which nothing was written). -/
def set_theme_color (fs : FS) (color_int : Int) (dry_run : Bool)
    (backup : Bool) : Option (Bool × FS) :=
  match fs.prefs with
  | none => some (false, fs)
  | some prefs =>
    match updatePrefs prefs color_int with
    | none => none
    | some newPrefs =>
      if dry_run then some (true, fs)
      else
        some (true,
          { prefs := some newPrefs,
            backups := if backup then prefs :: fs.backups else fs.backups })

/-- One nesting slot (`autogenerated` or `extensions`) is well-shaped:
absent, or an object whose `theme` member is absent or an object. -/
def wfSlot (l : List (String × Json)) (k : String) : Bool :=
  match jLookup l k with
  | none => true
  | some (.obj a) =>
    (match jLookup a "theme" with
     | none => true
     | some (.obj _) => true
     | some _ => false)
  | some _ => false

/-- A preference document of the shape `set_theme_color` expects: a JSON
object whose `autogenerated`, `autogenerated.theme`, `extensions` and
`extensions.theme` members, where present, are objects (the spec's
"well-formed preference document"; on any other shape the script raises an
uncaught `TypeError`, even in a dry run). -/
def wellFormedPrefs : Json → Bool
  | .obj top => wfSlot top "autogenerated" && wfSlot top "extensions"
  | _ => false

/-! ## Name index loader (`load_profile_names_from_local_state`,
lines 197-214)

The argument is the result of reading the `Local State` file: `none` when
the file is missing, unreadable, or malformed JSON (the caught
`JSONDecodeError` / `IOError` branch, returning `{}`), `some state`
otherwise.  The result `none` models an uncaught `AttributeError`: the
script calls `.get` / `.items()` on whatever sits at `state`,
`state["profile"]` or `...["info_cache"]`, which raises when that value is
valid JSON of a non-object shape. -/

def infoCacheNames : List (String × Json) → Option (List (String × Json))
  | [] => some []
  | (folder, info) :: rest =>
    match info with
    | .obj fields =>
      match infoCacheNames rest with
      | some m => some ((folder, (jLookup fields "name").getD (.str "")) :: m)
      | none => none
    | _ => none

def load_profile_names_from_local_state (r : Option Json) :
    Option (List (String × Json)) :=
  match r with
  | none => some []
  | some state =>
    match state with
    | .obj top =>
      match (jLookup top "profile").getD (.obj []) with
      | .obj pf =>
        match (jLookup pf "info_cache").getD (.obj []) with
        | .obj entries => infoCacheNames entries
        | _ => none
      | _ => none
    | _ => none

theorem setColorStep_color {prefs out : List (String × Json)} {c : Int}
    (h : setColorStep prefs c = some out) :
    jGetPath (.obj out) ["autogenerated", "theme", "color"] = some (.num c) := by
  unfold setColorStep at h
  split at h
  case _ auto0 hA =>
    split at h
    case _ theme0 hT =>
      injection h with h
      subst h
      simp [jGetPath, jLookup_jSet_self]
    case _ => simp at h
  case _ => simp at h

theorem setColorStep_preserves {prefs out : List (String × Json)} {c : Int}
    {q : String} (h : setColorStep prefs c = some out)
    (hq : q ≠ "autogenerated") : jLookup out q = jLookup prefs q := by
  unfold setColorStep at h
  split at h
  case _ auto0 hA =>
    split at h
    case _ theme0 hT =>
      injection h with h
      subst h
      rw [jLookup_jSet_ne _ _ hq, jLookup_jEnsure_ne _ hq]
    case _ => simp at h
  case _ => simp at h

theorem setThemeIdStep_id {prefs out : List (String × Json)}
    (h : setThemeIdStep prefs = some out) :
    jGetPath (.obj out) ["extensions", "theme", "id"]
      = some (.str "autogenerated_theme_id") := by
  unfold setThemeIdStep at h
  split at h
  case _ ext0 hE =>
    split at h
    case _ etheme0 hET =>
      injection h with h
      subst h
      simp [jGetPath, jLookup_jSet_self]
    case _ => simp at h
  case _ => simp at h

theorem setThemeIdStep_preserves {prefs out : List (String × Json)}
    {q : String} (h : setThemeIdStep prefs = some out)
    (hq : q ≠ "extensions") : jLookup out q = jLookup prefs q := by
  unfold setThemeIdStep at h
  split at h
  case _ ext0 hE =>
    split at h
    case _ etheme0 hET =>
      injection h with h
      subst h
      rw [jLookup_jSet_ne _ _ hq, jLookup_jEnsure_ne _ hq]
    case _ => simp at h
  case _ => simp at h

theorem updatePrefs_fields {j j' : Json} {c : Int}
    (h : updatePrefs j c = some j') :
    jGetPath j' ["extensions", "theme", "id"]
        = some (.str "autogenerated_theme_id")
    ∧ jGetPath j' ["autogenerated", "theme", "color"] = some (.num c) := by
  unfold updatePrefs at h
  split at h
  case _ prefs0 =>
    split at h
    case _ prefs2 hC =>
      split at h
      case _ prefs4 hT =>
        injection h with h
        subst h
        refine ⟨setThemeIdStep_id hT, ?_⟩
        have hpres : jLookup prefs4 "autogenerated"
            = jLookup prefs2 "autogenerated" :=
          setThemeIdStep_preserves hT (by decide)
        have := setColorStep_color hC
        simp only [jGetPath, hpres] at *
        exact this
      case _ => simp at h
    case _ => simp at h
  case _ => simp at h

theorem setColorStep_isSome {prefs : List (String × Json)} (c : Int)
    (hw : wfSlot prefs "autogenerated" = true) :
    (setColorStep prefs c).isSome := by
  unfold wfSlot at hw
  unfold setColorStep
  cases hA : jLookup prefs "autogenerated" with
  | none =>
    simp only [jLookup_jEnsure_self, hA, Option.getD_none]
    simp [jEnsure, jLookup, jSet]
  | some a =>
    simp only [hA] at hw
    cases a with
    | obj a0 =>
      simp only [jLookup_jEnsure_self, hA, Option.getD_some]
      cases hT : jLookup a0 "theme" with
      | none =>
        simp only [jLookup_jEnsure_self, hT, Option.getD_none]
        simp
      | some t =>
        simp only [hT] at hw
        cases t with
        | obj t0 =>
          simp only [jLookup_jEnsure_self, hT, Option.getD_some]
          simp
        | null => simp at hw
        | bool b => simp at hw
        | num n => simp at hw
        | str s => simp at hw
        | arr xs => simp at hw
    | null => simp at hw
    | bool b => simp at hw
    | num n => simp at hw
    | str s => simp at hw
    | arr xs => simp at hw

theorem setThemeIdStep_isSome {prefs : List (String × Json)}
    (hw : wfSlot prefs "extensions" = true) :
    (setThemeIdStep prefs).isSome := by
  unfold wfSlot at hw
  unfold setThemeIdStep
  cases hA : jLookup prefs "extensions" with
  | none =>
    simp only [jLookup_jEnsure_self, hA, Option.getD_none]
    simp [jEnsure, jLookup, jSet]
  | some a =>
    simp only [hA] at hw
    cases a with
    | obj a0 =>
      simp only [jLookup_jEnsure_self, hA, Option.getD_some]
      cases hT : jLookup a0 "theme" with
      | none =>
        simp only [jLookup_jEnsure_self, hT, Option.getD_none]
        simp
      | some t =>
        simp only [hT] at hw
        cases t with
        | obj t0 =>
          simp only [jLookup_jEnsure_self, hT, Option.getD_some]
          simp
        | null => simp at hw
        | bool b => simp at hw
        | num n => simp at hw
        | str s => simp at hw
        | arr xs => simp at hw
    | null => simp at hw
    | bool b => simp at hw
    | num n => simp at hw
    | str s => simp at hw
    | arr xs => simp at hw

theorem updatePrefs_wf_isSome {j : Json} (c : Int)
    (hw : wellFormedPrefs j = true) : (updatePrefs j c).isSome := by
  cases j with
  | obj prefs0 =>
    simp only [wellFormedPrefs, Bool.and_eq_true] at hw
    obtain ⟨hw1, hw2⟩ := hw
    obtain ⟨prefs2, hC⟩ :=
      Option.isSome_iff_exists.mp (setColorStep_isSome c hw1)
    have hw2' : wfSlot prefs2 "extensions" = true := by
      unfold wfSlot
      rw [setColorStep_preserves hC (by decide)]
      exact hw2
    obtain ⟨prefs4, hT⟩ :=
      Option.isSome_iff_exists.mp (setThemeIdStep_isSome hw2')
    unfold updatePrefs
    simp only [hC, hT, Option.isSome_some]
  | null => simp [wellFormedPrefs] at hw
  | bool b => simp [wellFormedPrefs] at hw
  | num n => simp [wellFormedPrefs] at hw
  | str s => simp [wellFormedPrefs] at hw
  | arr xs => simp [wellFormedPrefs] at hw

/-- **C3**: whenever a non-dry-run `set_theme_color` succeeds (returns
`True`), the stored document has `extensions.theme.id` equal to the
sentinel `"autogenerated_theme_id"` and `autogenerated.theme.color` equal
to the integer passed in, regardless of the document's prior content. -/
theorem set_theme_color_success_claim (fs : FS) (c : Int) (b : Bool)
    (fs' : FS) (h : set_theme_color fs c false b = some (true, fs')) :
    ∃ j', fs'.prefs = some j'
      ∧ jGetPath j' ["extensions", "theme", "id"]
          = some (.str "autogenerated_theme_id")
      ∧ jGetPath j' ["autogenerated", "theme", "color"] = some (.num c) := by
  unfold set_theme_color at h
  split at h
  · simp at h
  case _ prefs hp =>
    split at h
    · simp at h
    case _ newPrefs hu =>
      rw [if_neg (by decide : ¬((false : Bool) = true))] at h
      injection h with h
      have hfs : fs' = FS.mk (some newPrefs)
          (if b then prefs :: fs.backups else fs.backups) :=
        (congrArg Prod.snd h).symm
      obtain ⟨h1, h2⟩ := updatePrefs_fields hu
      exact ⟨newPrefs, by rw [hfs], h1, h2⟩

/-- Witness for C3: applying color `7` to the empty-object document. -/
theorem set_theme_color_success_claim_witness :
    ∃ j', (FS.mk (some (Json.obj
        [("autogenerated", Json.obj [("theme", Json.obj
            [("color", Json.num 7)])]),
         ("extensions", Json.obj [("theme", Json.obj
            [("id", Json.str "autogenerated_theme_id")])])])) []).prefs
        = some j'
      ∧ jGetPath j' ["extensions", "theme", "id"]
          = some (.str "autogenerated_theme_id")
      ∧ jGetPath j' ["autogenerated", "theme", "color"]
          = some (.num 7) :=
  set_theme_color_success_claim ⟨some (.obj []), []⟩ 7 false _ rfl

/-- **C4**: on a well-formed preference document, `set_theme_color` with
`dry_run = True` performs no filesystem writes at all — no backup is
created and the stored document is unchanged — and returns success. -/
theorem set_theme_color_dry_run_claim (fs : FS) (c : Int) (b : Bool)
    (j : Json) (h1 : fs.prefs = some j) (h2 : wellFormedPrefs j = true) :
    set_theme_color fs c true b = some (true, fs) := by
  obtain ⟨p, bk⟩ := fs
  have h1' : p = some j := h1
  subst h1'
  obtain ⟨j2, hj2⟩ := Option.isSome_iff_exists.mp (updatePrefs_wf_isSome c h2)
  unfold set_theme_color
  simp only [hj2]
  rfl

/-- Witness for C4: a dry run with the empty-object document. -/
theorem set_theme_color_dry_run_claim_witness :
    set_theme_color ⟨some (.obj []), []⟩ 3 true true
      = some (true, ⟨some (.obj []), []⟩) :=
  set_theme_color_dry_run_claim ⟨some (.obj []), []⟩ 3 true (.obj [])
    rfl (by decide)

/-- **C5**: when the preference document fails to read or parse,
`set_theme_color` returns `False` and the filesystem state is untouched
(no write, no backup); conversely, `False` is returned only in that case,
and then the state is untouched. -/
theorem set_theme_color_parse_failure_claim (fs : FS) (c : Int)
    (d b : Bool) :
    (fs.prefs = none → set_theme_color fs c d b = some (false, fs))
    ∧ (∀ fs', set_theme_color fs c d b = some (false, fs')
        → fs.prefs = none ∧ fs' = fs) := by
  obtain ⟨p, bk⟩ := fs
  constructor
  · intro h
    have h' : p = none := h
    subst h'
    rfl
  · intro fs' h
    cases p with
    | none =>
      refine ⟨rfl, ?_⟩
      simp [set_theme_color] at h
      exact h.symm
    | some j =>
      exfalso
      unfold set_theme_color at h
      dsimp only at h
      split at h
      · simp at h
      · split at h <;> simp at h

/-- Witness for C5: an unreadable document, `dry_run = False`,
`backup = True`. -/
theorem set_theme_color_parse_failure_claim_witness :
    set_theme_color ⟨none, []⟩ 5 false true = some (false, ⟨none, []⟩) :=
  (set_theme_color_parse_failure_claim ⟨none, []⟩ 5 false true).1 rfl

/-- **C9**, counterexample: a name-index file whose content is valid JSON
but not an object (here the array `[]`) makes
`load_profile_names_from_local_state` raise an uncaught `AttributeError`
(modelled by `none`) instead of returning a mapping, so the function can
raise. -/
theorem load_profile_names_nonobject_counterexample :
    load_profile_names_from_local_state (some (.arr [])) = none := rfl

/-- **C9** (amended): a missing name-index file, an unreadable file, or
malformed JSON all yield the empty mapping without an error; only valid
JSON of a non-object shape makes the function raise. -/
theorem load_profile_names_error_claim :
    load_profile_names_from_local_state none = some [] := rfl

/-! ## Profile discovery and ordering (`get_profile_dirs`, lines 217-250)

The directory enumeration is modelled by a list of entries (`iterdir`
order), each carrying the two facts the function checks: whether it is a
directory and whether it contains a `Preferences` file.  Python's `sorted`
is a stable sort by `sort_key`; it is modelled by `List.insertionSort`,
which is also stable. -/

/-- Python `str.split()` whitespace (space, tab, LF, VT, FF, CR). -/
def isSpaceB (c : Char) : Bool :=
  c == ' ' || (decide (9 ≤ c.toNat) && decide (c.toNat ≤ 13))

def splitAux : List Char → List Char → List (List Char)
  | [], acc => if acc.isEmpty then [] else [acc.reverse]
  | c :: cs, acc =>
    if isSpaceB c then
      (if acc.isEmpty then splitAux cs [] else acc.reverse :: splitAux cs [])
    else splitAux cs (c :: acc)

/-- `name.split()`: split on whitespace runs, discarding empty pieces. -/
def pySplit (s : List Char) : List (List Char) := splitAux s []

def digitsToNat? (ds : List Char) : Option Nat :=
  if ds.isEmpty then none
  else ds.foldl (fun acc c =>
    acc.bind (fun a =>
      if 48 ≤ c.toNat ∧ c.toNat ≤ 57 then some (10 * a + (c.toNat - 48))
      else none)) (some 0)

/-- `int(s)` on a whitespace-free piece: optional sign then decimal
digits; `none` models the `ValueError` (underscore separators, which never
occur in profile folder names, are not modelled). -/
def pyInt? : List Char → Option Int
  | '+' :: ds => (digitsToNat? ds).map (fun n => (n : Int))
  | '-' :: ds => (digitsToNat? ds).map (fun n => -(n : Int))
  | ds => (digitsToNat? ds).map (fun n => (n : Int))

def startsWithB : List Char → List Char → Bool
  | [], _ => true
  | _ :: _, [] => false
  | p :: ps, c :: cs => p == c && startsWithB ps cs

/-- The three groups of the `sort_key` tuple: `(0, 0)` for `"Default"`,
`(1, N)` for a parsed `"Profile N"`, `(2, name)` otherwise (including a
`"Profile "` prefix whose second piece is missing — `IndexError` — or not
an integer — `ValueError`). -/
inductive SKey where
  | default
  | num (n : Int)
  | other (s : String)

/-- The nested `sort_key` function of `get_profile_dirs`. -/
def sort_key (name : String) : SKey :=
  if name = "Default" then .default
  else if startsWithB "Profile ".data name.data then
    match pySplit name.data with
    | _ :: second :: _ =>
      match pyInt? second with
      | some n => .num n
      | none => .other name
    | _ => .other name
  else .other name

/-- Python string comparison: lexicographic by code point. -/
def lexLe : List Char → List Char → Bool
  | [], _ => true
  | _ :: _, [] => false
  | c :: cs, d :: ds =>
    if c.toNat < d.toNat then true
    else if d.toNat < c.toNat then false
    else lexLe cs ds

/-- Python's tuple comparison on sort keys: group first, then the
in-group component (numeric for `Profile N`, lexicographic otherwise). -/
def keyLe : SKey → SKey → Bool
  | .default, _ => true
  | .num _, .default => false
  | .num n, .num m => decide (n ≤ m)
  | .num _, .other _ => true
  | .other _, .default => false
  | .other _, .num _ => false
  | .other s, .other t => lexLe s.data t.data

def profLe (a b : String) : Prop := keyLe (sort_key a) (sort_key b) = true

instance : DecidableRel profLe :=
  fun _ _ => inferInstanceAs (Decidable (_ = true))

/-- One entry of `user_data_dir.iterdir()` with the two facts
`get_profile_dirs` checks about it. -/
structure DirEntry where
  name : String
  isDir : Bool
  hasPrefs : Bool

/-- `get_profile_dirs` (lines 217-250): keep directories that contain a
`Preferences` file, drop the two system pseudo-profiles, and sort the
names by `sort_key` (stable). -/
def get_profile_dirs (entries : List DirEntry) : List String :=
  List.insertionSort profLe
    ((entries.filter (fun e => e.isDir && e.hasPrefs
        && !(e.name == "System Profile")
        && !(e.name == "Guest Profile"))).map (fun e => e.name))

theorem lexLe_total : ∀ s t, lexLe s t = true ∨ lexLe t s = true := by
  intro s
  induction s with
  | nil => intro t; left; rfl
  | cons c cs ih =>
    intro t
    cases t with
    | nil => right; rfl
    | cons d ds =>
      simp only [lexLe]
      rcases Nat.lt_trichotomy c.toNat d.toNat with h | h | h
      · left
        rw [if_pos h]
      · rw [if_neg (by omega), if_neg (by omega), if_neg (by omega),
          if_neg (by omega)]
        exact ih ds
      · right
        rw [if_pos h]

theorem lexLe_trans {a b c : List Char} (h1 : lexLe a b = true)
    (h2 : lexLe b c = true) : lexLe a c = true := by
  induction a generalizing b c with
  | nil => rfl
  | cons x xs ih =>
    cases b with
    | nil => simp [lexLe] at h1
    | cons y ys =>
      cases c with
      | nil => simp [lexLe] at h2
      | cons z zs =>
        simp only [lexLe] at h1 h2 ⊢
        split_ifs at h1 h2 ⊢ <;>
          first
            | rfl
            | exact absurd h1 (by decide)
            | exact absurd h2 (by decide)
            | exact ih h1 h2
            | (exfalso; omega)

theorem keyLe_total : ∀ x y, keyLe x y = true ∨ keyLe y x = true := by
  intro x y
  cases x <;> cases y <;> simp [keyLe] <;>
    first
      | omega
      | exact lexLe_total _ _

theorem keyLe_trans : ∀ {x y z : SKey}, keyLe x y = true → keyLe y z = true
    → keyLe x z = true := by
  intro x y z h1 h2
  cases x <;> cases y <;> cases z <;> simp_all [keyLe] <;>
    first
      | omega
      | exact lexLe_trans h1 h2

instance : IsTotal String profLe := ⟨fun _ _ => keyLe_total _ _⟩

instance : IsTrans String profLe := ⟨fun _ _ _ => keyLe_trans⟩

/-- **C6**: `get_profile_dirs` returns exactly the qualifying profile
folders, sorted in the total order given by `sort_key`/`keyLe`: `"Default"`
first, then `"Profile N"` ascending by `N`, then all other names in
lexicographic order after the numbered profiles; in particular
`["Profile 10", "Default", "Profile 2", "Zeta"]` sorts to
`["Default", "Profile 2", "Profile 10", "Zeta"]`. -/
theorem get_profile_dirs_order_claim :
    (∀ entries : List DirEntry,
        List.Sorted profLe (get_profile_dirs entries)
        ∧ (get_profile_dirs entries).Perm
            ((entries.filter (fun e => e.isDir && e.hasPrefs
                && !(e.name == "System Profile")
                && !(e.name == "Guest Profile"))).map (fun e => e.name)))
    ∧ get_profile_dirs
        [⟨"Profile 10", true, true⟩, ⟨"Default", true, true⟩,
         ⟨"Profile 2", true, true⟩, ⟨"Zeta", true, true⟩]
      = ["Default", "Profile 2", "Profile 10", "Zeta"] := by
  refine ⟨fun entries =>
    ⟨List.sorted_insertionSort profLe _, List.perm_insertionSort profLe _⟩,
    ?_⟩
  rfl

/-! ## Name resolution (`find_profiles_by_name`, lines 342-379)

The two reads the function performs (`get_profile_dirs` and
`load_profile_names_from_local_state`, plus the per-profile
`get_profile_display_name` fallback) are factored at the I/O boundary:
`profiles` is the ordered profile list, each entry carrying the display
name its own `Preferences` file yields (`""` when missing or unreadable),
and `localNames` is the folder-to-name mapping from `Local State`.  The
dictionary built over lowercased display names is an insertion-ordered
association list, as in Python. -/

structure ProfileDir where
  folder : String
  prefsName : String

/-- `str.lower` (ASCII). -/
def lowerStr (s : String) : String := ⟨s.data.map lowerChar⟩

def dlookup : List (String × String) → String → Option String
  | [], _ => none
  | (k, v) :: rest, q => if k = q then some v else dlookup rest q

/-- Python dict assignment: replace in place or append. -/
def dinsert : List (String × String) → String → String →
    List (String × String)
  | [], k, v => [(k, v)]
  | (k', v') :: rest, k, v =>
    if k' = k then (k, v) :: rest else (k', v') :: dinsert rest k v

/-- Python's substring test `needle in hay`. -/
def containsSubB : List Char → List Char → Bool
  | n, [] => startsWithB n []
  | n, c :: t => startsWithB n (c :: t) || containsSubB n t

/-- Lines 359-364: build `name_to_profile`, keyed by lowercased display
name (Local State name if non-empty, else the Preferences fallback;
profiles with an empty display name are skipped). -/
def buildNameDict (profiles : List ProfileDir)
    (localNames : List (String × String)) : List (String × String) :=
  profiles.foldl (fun d p =>
    match dlookup localNames p.folder with
    | some n =>
      if n = "" then
        (if p.prefsName = "" then d
         else dinsert d (lowerStr p.prefsName) p.folder)
      else dinsert d (lowerStr n) p.folder
    | none =>
      if p.prefsName = "" then d
      else dinsert d (lowerStr p.prefsName) p.folder) []

/-- Lines 373-377: scan the dict in iteration order and take the first
entry whose display name contains the query as a substring. -/
def firstSubMatch : List (String × String) → String → Option String
  | [], _ => none
  | (k, v) :: rest, q =>
    if containsSubB q.data k.data then some v else firstSubMatch rest q

/-- Lines 367-377, one query: case-fold, try the exact reverse lookup,
fall back to the first substring match. -/
def matchQuery (d : List (String × String)) (q : String) : Option String :=
  match dlookup d (lowerStr q) with
  | some p => some p
  | none => firstSubMatch d (lowerStr q)

/-- `find_profiles_by_name`: queries that match contribute the matched
profile, in query order; queries that match nothing contribute nothing. -/
def find_profiles_by_name (profiles : List ProfileDir)
    (localNames : List (String × String)) (names : List String) :
    List String :=
  names.filterMap (matchQuery (buildNameDict profiles localNames))

theorem lowerChar_idem (c : Char) : lowerChar (lowerChar c) = lowerChar c := by
  by_cases h : 65 ≤ c.toNat ∧ c.toNat ≤ 90
  · have e1 : lowerChar c = Char.ofNat (c.toNat + 32) := by
      unfold lowerChar
      rw [if_pos h]
    have ht : (Char.ofNat (c.toNat + 32)).toNat = c.toNat + 32 :=
      toNat_ofNat_valid (by omega)
    rw [e1]
    unfold lowerChar
    rw [if_neg (by rw [ht]; omega)]
  · have e1 : lowerChar c = c := by
      unfold lowerChar
      rw [if_neg h]
    rw [e1, e1]

theorem lowerStr_idem (s : String) : lowerStr (lowerStr s) = lowerStr s := by
  unfold lowerStr
  apply congrArg
  show (s.data.map lowerChar).map lowerChar = s.data.map lowerChar
  rw [List.map_map]
  exact List.map_congr_left (fun a _ => lowerChar_idem a)

/-- **C7**: matching is case-insensitive (a query and its case-folded form
match identically); the case-folded query is first tried as an exact match
against the lowercase lookup, and only if that fails are entries scanned in
mapping iteration order, accepting the first whose display name contains
the query as a substring; a profile named "Work Account" matches
"work account", "WORK", and "ccount". -/
theorem find_profiles_by_name_matching_claim :
    (∀ d q, matchQuery d q = matchQuery d (lowerStr q))
    ∧ (∀ d q p, dlookup d (lowerStr q) = some p → matchQuery d q = some p)
    ∧ (∀ d q, dlookup d (lowerStr q) = none
        → matchQuery d q = firstSubMatch d (lowerStr q))
    ∧ find_profiles_by_name [⟨"Profile 1", "Work Account"⟩] []
        ["work account", "WORK", "ccount"]
      = ["Profile 1", "Profile 1", "Profile 1"] := by
  refine ⟨?_, ?_, ?_, ?_⟩
  · intro d q
    unfold matchQuery
    rw [lowerStr_idem]
  · intro d q p h
    unfold matchQuery
    simp only [h]
  · intro d q h
    unfold matchQuery
    simp only [h]
  · rfl

/-- Witness for C7: the exact-match branch at a concrete dictionary. -/
theorem find_profiles_by_name_matching_claim_witness :
    matchQuery [("work account", "Profile 1")] "Work Account"
      = some "Profile 1" :=
  find_profiles_by_name_matching_claim.2.1 [("work account", "Profile 1")]
    "Work Account" "Profile 1" (by decide)

/-- **C10**: `find_profiles_by_name` does not deduplicate across queries:
the two distinct queries "WORK" and "ccount" both match the profile named
"Work Account", which therefore appears once per matching query, so a
caller iterating the result mutates the same preference document twice. -/
theorem find_profiles_by_name_no_dedup_claim :
    find_profiles_by_name [⟨"Profile 1", "Work Account"⟩] []
        ["WORK", "ccount"] = ["Profile 1", "Profile 1"]
    ∧ ("WORK" : String) ≠ "ccount" := by
  constructor
  · rfl
  · decide
